import Mathlib

/-!
Verification of the task tracker's reconciliation engine, derivation
pipeline, task-number allocator and import handler (source: `src/App.tsx`,
`src/types.ts`, `src/components/TaskCard.tsx`, and the report modal).

The TypeScript code is shallowly embedded:
* JS strings become `String`; optional string fields that the code tests
  with truthiness (`actualCompletedDate`, `notes`) become `String` with
  `""` playing the role of absent/empty; `targetDate` (tested with `!`)
  becomes `Option String`, where both `none` and `some ""` are falsy.
* The status literals `'未開始' | '進行中' | '等待中' | '已完成'` become the
  constructors `notStarted | inProgress | waiting | completed`.
* `new Date().toISOString().split('T')[0]` (the wall-clock day) is an
  explicit `today : String` parameter; `Date.now()`, `crypto.randomUUID()`
  are explicit parameters as well.
* JS numbers used as progress percentages become `Int`.
-/

namespace App

/-- `TaskStatus` from `src/types.ts`: 未開始 / 進行中 / 等待中 / 已完成. -/
inductive TaskStatus where
  | notStarted
  | inProgress
  | waiting
  | completed
deriving DecidableEq, Repr

/-- `Priority` from `src/types.ts`. -/
inductive Priority where
  | low
  | medium
  | high
deriving DecidableEq, Repr

/-- `ReportEntry` from `src/types.ts`. -/
structure ReportEntry where
  id : String
  date : String
  reporter : String
  content : String
  progress : Int
  timestamp : Nat
deriving DecidableEq, Repr

/-- `Task` from `src/types.ts`.  `actualCompletedDate` and `notes` are
optional strings in the source that are always tested with truthiness, so
they are plain strings here with `""` meaning absent. -/
structure Task where
  id : String
  taskNumber : String
  assignedDate : String
  system : String
  category : String
  assigner : String
  assignee : String
  content : String
  targetDate : Option String
  actualCompletedDate : String
  status : TaskStatus
  priority : Priority
  tags : List String
  progress : Int
  reports : List ReportEntry
  notes : String
  syncedCalendar : Bool
  syncedSheet : Bool
deriving DecidableEq, Repr

/-- The `(field, value)` pairs accepted by `handleUpdateTask` in
`src/App.tsx` (one constructor per `keyof Task` that the UI passes). -/
inductive FieldMut where
  | status (v : TaskStatus)
  | progress (v : Int)
  | actualCompletedDate (v : String)
  | content (v : String)
  | assignee (v : String)
  | assigner (v : String)
  | assignedDate (v : String)
  | targetDate (v : Option String)
  | tags (v : List String)
  | notes (v : String)
  | system (v : String)
  | category (v : String)
  | priority (v : Priority)
deriving DecidableEq, Repr

/-- `handleUpdateTask` (src/App.tsx lines 393-435), for the task that
matches the id.  The update `{ ...t, [field]: value }` is applied first and
then the three reconciliation blocks run; each block is guarded by the
field name, so exactly one block can fire per call. -/
def handleUpdateTask (today : String) (t : Task) : FieldMut → Task
  | .status v =>
    let u := { t with status := v }
    if v = TaskStatus.completed then
      { u with progress := 100, actualCompletedDate := today }
    else if t.status = TaskStatus.completed ∧ v ≠ TaskStatus.completed then
      { u with actualCompletedDate := "" }
    else u
  | .progress v =>
    let u := { t with progress := v }
    if v = 100 then
      { u with status := TaskStatus.completed, actualCompletedDate := today }
    else if v < 100 ∧ t.progress = 100 then
      { u with status := TaskStatus.inProgress, actualCompletedDate := "" }
    else u
  | .actualCompletedDate v =>
    let u := { t with actualCompletedDate := v }
    if v ≠ "" then
      { u with progress := 100, status := TaskStatus.completed }
    else if u.status = TaskStatus.completed then
      { u with status := TaskStatus.inProgress }
    else u
  | .content v => { t with content := v }
  | .assignee v => { t with assignee := v }
  | .assigner v => { t with assigner := v }
  | .assignedDate v => { t with assignedDate := v }
  | .targetDate v => { t with targetDate := v }
  | .tags v => { t with tags := v }
  | .notes v => { t with notes := v }
  | .system v => { t with system := v }
  | .category v => { t with category := v }
  | .priority v => { t with priority := v }

/-- `handleStatusChange` (src/App.tsx lines 437-449), for the matching
task. -/
def handleStatusChange (today : String) (t : Task) (newStatus : TaskStatus) : Task :=
  let isComplete := newStatus = TaskStatus.completed
  { t with
      status := newStatus
      progress := if isComplete then 100 else t.progress
      actualCompletedDate :=
        if isComplete then today
        else if t.status = TaskStatus.completed then "" else t.actualCompletedDate }

/-- `handleSaveReport` (src/App.tsx lines 549-586), for the matching task.
`newId` stands for `crypto.randomUUID()` and `timestamp` for `Date.now()`. -/
def handleSaveReport (today : String) (timestamp : Nat) (newId : String)
    (t : Task) (progress : Int) (reportContent : String) : Task :=
  let newReport : ReportEntry :=
    { id := newId, date := today, reporter := t.assignee,
      content := reportContent, progress := progress, timestamp := timestamp }
  let updatedReports := if reportContent ≠ "" then t.reports ++ [newReport] else t.reports
  let sd : TaskStatus × String :=
    if progress = 100 then
      (TaskStatus.completed, today)
    else if progress > 0 ∧ t.status = TaskStatus.notStarted then
      (TaskStatus.inProgress, if t.progress = 100 then "" else t.actualCompletedDate)
    else if progress < 100 ∧ t.progress = 100 then
      (t.status, "")
    else
      (t.status, t.actualCompletedDate)
  { t with
      progress := progress
      status := sd.1
      actualCompletedDate := sd.2
      reports := updatedReports }

/-- JS `String.prototype.trim`: strip leading and trailing whitespace
(character-list computation, so that it evaluates by `decide`). -/
def jsTrim (s : String) : String :=
  ⟨((s.data.dropWhile Char.isWhitespace).reverse.dropWhile Char.isWhitespace).reverse⟩

/-- `handleSubmit` in the report modal (src/unnamed/part_000 lines 17-25):
a submission with blank content and unchanged progress closes the modal
without saving; anything else calls `handleSaveReport`. -/
def handleSubmit (today : String) (timestamp : Nat) (newId : String)
    (t : Task) (progress : Int) (reportContent : String) : Task :=
  if jsTrim reportContent = "" ∧ progress = t.progress then t
  else handleSaveReport today timestamp newId t progress reportContent

/-- A freshly created task as built by `handleAddTask`
(src/App.tsx lines 346-365): `status = '未開始'`, `progress = 0`,
`reports = []`, `actualCompletedDate = ''`. -/
def freshTask (id taskNumber assignedDate system category assigner assignee content : String)
    (targetDate : Option String) (priority : Priority) (tags : List String) : Task :=
  { id := id, taskNumber := taskNumber, assignedDate := assignedDate,
    system := system, category := category, assigner := assigner,
    assignee := assignee, content := content, targetDate := targetDate,
    status := TaskStatus.notStarted, priority := priority, tags := tags,
    progress := 0, reports := [], notes := "",
    syncedCalendar := false, syncedSheet := false, actualCompletedDate := "" }

/-! ### The mutation entry points of spec §4.1 as a step relation -/

/-- One user-driven mutation of a single task: a `handleUpdateTask` call
(direct field edit, covering direct status change, direct progress edit and
manual actualCompletedDate entry/clear), a `handleStatusChange` call, or a
`handleSaveReport` call.  Each step carries the wall-clock `today` (and the
fresh id / timestamp for reports) it runs with. -/
inductive Mut where
  | update (today : String) (f : FieldMut)
  | statusChange (today : String) (s : TaskStatus)
  | report (today : String) (timestamp : Nat) (newId : String) (progress : Int) (content : String)
deriving Repr

/-- Apply one mutation. -/
def applyMut (t : Task) : Mut → Task
  | .update today f => handleUpdateTask today t f
  | .statusChange today s => handleStatusChange today t s
  | .report today ts nid p c => handleSaveReport today ts nid t p c

/-- Apply a sequence of mutations, first element first. -/
def applySeq (t : Task) (ms : List Mut) : Task :=
  ms.foldl applyMut t

/-- Caller contract for a mutation (spec §4.1 error conditions): the
wall-clock day string is never empty, and progress values delivered by the
UI sliders are integers in `[0, 100]`. -/
def mutWellFormed : Mut → Prop
  | .update today f =>
      today ≠ "" ∧ (match f with | .progress v => 0 ≤ v ∧ v ≤ 100 | _ => True)
  | .statusChange today _ => today ≠ ""
  | .report today _ _ p _ => today ≠ "" ∧ 0 ≤ p ∧ p ≤ 100

/-- The part of the status–progress–date triangle that every mutation
entry point actually re-establishes: a non-empty `actualCompletedDate`
forces `status = completed` and `progress = 100`. -/
def DateSideInv (t : Task) : Prop :=
  t.actualCompletedDate ≠ "" → t.status = TaskStatus.completed ∧ t.progress = 100

lemma dateSideInv_applyMut (t : Task) (m : Mut)
    (hInv : DateSideInv t) (hwf : mutWellFormed m) : DateSideInv (applyMut t m) := by
  cases m with
  | update today f =>
    obtain ⟨htoday, hf⟩ := hwf
    cases f with
    | status v =>
      by_cases hv : v = TaskStatus.completed
      · simp [applyMut, handleUpdateTask, hv, DateSideInv]
      · by_cases ht : t.status = TaskStatus.completed
        · simp [applyMut, handleUpdateTask, hv, ht, DateSideInv]
        · simp only [applyMut, handleUpdateTask, if_neg hv]
          rw [if_neg (by simp [ht])]
          intro hdate
          exact absurd (hInv hdate).1 ht
    | progress v =>
      by_cases hv : v = 100
      · simp [applyMut, handleUpdateTask, hv, DateSideInv]
      · by_cases hp : v < 100 ∧ t.progress = 100
        · simp [applyMut, handleUpdateTask, hv, hp, DateSideInv]
        · simp only [applyMut, handleUpdateTask, if_neg hv, if_neg hp]
          intro hdate
          have h100 := (hInv hdate).2
          exact absurd ⟨lt_of_le_of_ne hf.2 hv, h100⟩ hp
    | actualCompletedDate v =>
      by_cases hv : v = ""
      · by_cases ht : t.status = TaskStatus.completed
        · simp [applyMut, handleUpdateTask, hv, ht, DateSideInv]
        · simp [applyMut, handleUpdateTask, hv, ht, DateSideInv]
      · simp [applyMut, handleUpdateTask, hv, DateSideInv]
    | content v => exact fun hdate => hInv hdate
    | assignee v => exact fun hdate => hInv hdate
    | assigner v => exact fun hdate => hInv hdate
    | assignedDate v => exact fun hdate => hInv hdate
    | targetDate v => exact fun hdate => hInv hdate
    | tags v => exact fun hdate => hInv hdate
    | notes v => exact fun hdate => hInv hdate
    | system v => exact fun hdate => hInv hdate
    | category v => exact fun hdate => hInv hdate
    | priority v => exact fun hdate => hInv hdate
  | statusChange today s =>
    by_cases hs : s = TaskStatus.completed
    · simp [applyMut, handleStatusChange, hs, DateSideInv]
    · by_cases ht : t.status = TaskStatus.completed
      · simp [applyMut, handleStatusChange, hs, ht, DateSideInv]
      · simp only [applyMut, handleStatusChange, if_neg hs, if_neg ht]
        intro hdate
        exact absurd (hInv hdate).1 ht
  | report today ts nid p c =>
    obtain ⟨htoday, hp0, hp100⟩ := hwf
    by_cases hp : p = 100
    · simp [applyMut, handleSaveReport, hp, DateSideInv]
    · by_cases hns : p > 0 ∧ t.status = TaskStatus.notStarted
      · by_cases ht100 : t.progress = 100
        · simp [applyMut, handleSaveReport, hp, hns, ht100, DateSideInv]
        · simp only [applyMut, handleSaveReport, if_neg hp, if_pos hns, if_neg ht100]
          intro hdate
          exact absurd (hInv hdate).2 ht100
      · by_cases hlt : p < 100 ∧ t.progress = 100
        · simp [applyMut, handleSaveReport, hp, hns, hlt, DateSideInv]
        · simp only [applyMut, handleSaveReport, if_neg hp, if_neg hns, if_neg hlt]
          intro hdate
          have h100 := (hInv hdate).2
          exact absurd ⟨lt_of_le_of_ne hp100 hp, h100⟩ hlt

/-! ### Derivation pipeline: due-status classification -/

/-- The three values returned by `getTaskDueStatus`. -/
inductive DueStatus where
  | normal
  | overdue
  | dueSoon
deriving DecidableEq, Repr

/-- `1000 * 60 * 60 * 24`, the divisor in `getTaskDueStatus`. -/
def msPerDay : Int := 1000 * 60 * 60 * 24

/-- JavaScript `Math.ceil(a / b)` for integers `a` and positive `b`:
the ceiling of the real quotient, written as a negated floor division. -/
def mathCeilDiv (a b : Int) : Int := -((-a).fdiv b)

/-- `getTaskDueStatus` (src/App.tsx lines 129-143).  The two `Date` values
(`targetDate` and `today`, both forced to local midnight by
`setHours(0,0,0,0)`) are passed as epoch-millisecond integers; a missing or
empty `targetDate` string (falsy in `!targetDate`) is `none`. -/
def getTaskDueStatus (targetDateMs : Option Int) (status : TaskStatus) (todayMs : Int) :
    DueStatus :=
  match targetDateMs with
  | none => DueStatus.normal
  | some due =>
    if status = TaskStatus.completed then DueStatus.normal
    else
      let diffTime := due - todayMs
      let diffDays := mathCeilDiv diffTime msPerDay
      if diffDays < 0 then DueStatus.overdue
      else if diffDays ≥ 0 ∧ diffDays ≤ 3 then DueStatus.dueSoon
      else DueStatus.normal

/-- The classification exactly as the spec words it (§4.2): `normal` when
completed or no target date, else by the day difference `diffDays` with the
`< 0` / `0..3` thresholds.  Dates are whole local-midnight day numbers. -/
def dueStatusSpec (targetDays : Option Int) (status : TaskStatus) (todayDays : Int) :
    DueStatus :=
  match targetDays with
  | none => DueStatus.normal
  | some d =>
    if status = TaskStatus.completed then DueStatus.normal
    else if d - todayDays < 0 then DueStatus.overdue
    else if d - todayDays ≤ 3 then DueStatus.dueSoon
    else DueStatus.normal

/-! ### Derivation pipeline: search / assignee / status filters -/

/-- Boolean infix test on lists, the embedding of JS
`String.prototype.includes` at the character-list level. -/
def listContains [BEq α] : List α → List α → Bool
  | needle, [] => needle.isEmpty
  | needle, h :: t => needle.isPrefixOf (h :: t) || listContains needle t

/-- JS `haystack.includes(needle)`. -/
def jsIncludes (haystack needle : String) : Bool :=
  listContains needle.data haystack.data

/-- The free-text match of stage 1 of `filteredTasks`
(src/App.tsx lines 155-165), given the already lower-cased query. -/
def searchMatch (query : String) (t : Task) : Bool :=
  jsIncludes t.content.toLower query ||
  jsIncludes t.assignee.toLower query ||
  jsIncludes t.system.toLower query ||
  jsIncludes t.assigner.toLower query ||
  jsIncludes t.taskNumber.toLower query ||
  (t.notes ≠ "" && jsIncludes t.notes.toLower query)

/-- Stage 1 of `filteredTasks`: global search (skipped when the trimmed
query is empty). -/
def searchStage (searchQuery : String) (l : List Task) : List Task :=
  if jsTrim searchQuery ≠ "" then
    l.filter (searchMatch searchQuery.toLower)
  else l

/-- Stage 2 of `filteredTasks`: assignee filter (skipped for the `'all'`
sentinel). -/
def assigneeStage (filterAssignee : String) (l : List Task) : List Task :=
  if filterAssignee ≠ "all" then
    l.filter (fun t => t.assignee = filterAssignee)
  else l

/-- Stage 3 of `filteredTasks`: status filter
(`'unfinished'` / `'finished'` / pass-all). -/
def statusStage (filterStatus : String) (l : List Task) : List Task :=
  if filterStatus = "unfinished" then
    l.filter (fun t => t.status ≠ TaskStatus.completed)
  else if filterStatus = "finished" then
    l.filter (fun t => t.status = TaskStatus.completed)
  else l

/-- The stage-1 predicate including its empty-query pass-all guard. -/
def searchPred (searchQuery : String) (t : Task) : Bool :=
  jsTrim searchQuery = "" || searchMatch searchQuery.toLower t

/-- The stage-2 predicate including its `'all'` pass-all guard. -/
def assigneePred (filterAssignee : String) (t : Task) : Bool :=
  filterAssignee = "all" || t.assignee = filterAssignee

/-- The stage-3 predicate including its pass-all default. -/
def statusPred (filterStatus : String) (t : Task) : Bool :=
  if filterStatus = "unfinished" then t.status ≠ TaskStatus.completed
  else if filterStatus = "finished" then t.status = TaskStatus.completed
  else true

/-! ### Derivation pipeline: sort -/

/-- Truthiness of `t.targetDate` in JS (`undefined` and `''` are falsy). -/
def hasTargetDate (t : Task) : Bool :=
  t.targetDate.getD "" ≠ ""

/-- The sign convention of `String.prototype.localeCompare`, modelled as
lexicographic string comparison. -/
def strCompare (a b : String) : Int :=
  if a < b then -1 else if a = b then 0 else 1

/-- The comparator passed to `.sort` in `filteredTasks`
(src/App.tsx lines 180-191). -/
def sortComparator (sortOrder : String) (a b : Task) : Int :=
  if sortOrder = "date_asc" then
    if !hasTargetDate a then 1
    else if !hasTargetDate b then -1
    else strCompare (a.targetDate.getD "") (b.targetDate.getD "")
  else if sortOrder = "date_desc" then
    if !hasTargetDate a then 1
    else if !hasTargetDate b then -1
    else strCompare (b.targetDate.getD "") (a.targetDate.getD "")
  else strCompare b.taskNumber a.taskNumber

/-- Merge step of a stable merge sort; `le a b` means `a` may stay in
front of `b`. -/
def jsMerge (le : α → α → Bool) : List α → List α → List α
  | [], r => r
  | l, [] => l
  | x :: xs, y :: ys =>
    if le x y then x :: jsMerge le xs (y :: ys)
    else y :: jsMerge le (x :: xs) ys
termination_by l r => l.length + r.length

/-- Stable merge sort, the embedding of `Array.prototype.sort` (stable
since ES2019); an element `a` stays before `b` when the comparator returns
`≤ 0`. -/
def jsSort (cmp : α → α → Int) (l : List α) : List α :=
  mergeSortAux (fun a b => cmp a b ≤ 0) l
where
  mergeSortAux (le : α → α → Bool) : List α → List α
    | [] => []
    | [x] => [x]
    | x :: y :: rest =>
      let n := (rest.length + 2) / 2
      jsMerge le
        (mergeSortAux le ((x :: y :: rest).take n))
        (mergeSortAux le ((x :: y :: rest).drop n))
  termination_by l => l.length
  decreasing_by
    · simp only [List.length_take, List.length_cons]
      omega
    · simp only [List.length_drop, List.length_cons]
      omega

/-- Stage 4 of `filteredTasks`: `[...result].sort(comparator)`. -/
def sortStage (sortOrder : String) (l : List Task) : List Task :=
  jsSort (sortComparator sortOrder) l

/-- The whole `filteredTasks` pipeline (src/App.tsx lines 151-194). -/
def filteredTasks (searchQuery filterAssignee filterStatus sortOrder : String)
    (tasks : List Task) : List Task :=
  sortStage sortOrder
    (statusStage filterStatus
      (assigneeStage filterAssignee
        (searchStage searchQuery tasks)))

/-! ### Task number allocator -/

/-- JS `String(n).padStart(2, '0')` for the month/day numbers. -/
def pad2 (n : Nat) : String :=
  if n < 10 then "0" ++ toString n else toString n

/-- The `MMDD` prefix built by `generateTaskNumber` from the current date
(`getMonth() + 1` is the 1-based month). -/
def mmdd (month day : Nat) : String :=
  pad2 month ++ pad2 day

/-- JS `s.startsWith(pre)`. -/
def jsStartsWith (s pre : String) : Bool :=
  pre.data.isPrefixOf s.data

/-- `generateTaskNumber` (src/App.tsx lines 384-391) with the wall-clock
date injected as `(month, day)`. -/
def generateTaskNumber (tasks : List Task) (month day : Nat) : String :=
  let pfx := mmdd month day
  let dailyCount := (tasks.filter (fun t => jsStartsWith t.taskNumber pfx)).length + 1
  pfx ++ "-" ++ toString dailyCount

/-- Creation of one task as in `handleAddTask`: the new task receives
`generateTaskNumber tasks month day` and is prepended
(`setTasks(prev => [newTask, ...prev])`).  `t0` supplies every other
field. -/
def addTask (tasks : List Task) (month day : Nat) (t0 : Task) : List Task :=
  { t0 with taskNumber := generateTaskNumber tasks month day } :: tasks

/-! ### Import handler -/

/-- The shape of a parsed JSON value, as far as
`handleImportDatabase` inspects it (`Array.isArray`). -/
inductive Json where
  | null
  | bool (b : Bool)
  | num (n : Int)
  | str (s : String)
  | arr (items : List Json)
  | obj (fields : List (String × Json))

/-- What `handleImportDatabase` reported to the user. -/
inductive ImportOutcome where
  | replaced
  | cancelled
  | formatError
deriving DecidableEq, Repr

/-- `handleImportDatabase` (src/App.tsx lines 102-127) after a successful
`JSON.parse`: an array replaces the whole collection (if the user confirms),
anything else alerts `檔案格式錯誤` and leaves the collection untouched.
The stored collection is kept as raw JSON values, as the source performs no
element validation. -/
def handleImportDatabase (confirm : Bool) (parsed : Json) (current : List Json) :
    List Json × ImportOutcome :=
  match parsed with
  | .arr items =>
    if confirm then (items, ImportOutcome.replaced)
    else (current, ImportOutcome.cancelled)
  | _ => (current, ImportOutcome.formatError)

/-! ### Concrete values reused by witnesses and counterexamples -/

/-- A concrete freshly created task (status `未開始`, progress 0, empty
`actualCompletedDate`, no reports). -/
def sampleTask : Task :=
  freshTask "id-1" "0601-1" "2024-06-01" "HVAC" "drawing" "Alice" "Bob" "check ducts"
    none Priority.medium []

/-- A concrete task that does carry a target date. -/
def sampleDatedTask : Task :=
  freshTask "id-2" "0601-2" "2024-06-01" "electrical" "report" "Alice" "Carol" "CCTV form"
    (some "2024-06-10") Priority.high []

/-! ### C5: filter composition -/

lemma searchStage_eq_filter (q : String) (l : List Task) :
    searchStage q l = l.filter (searchPred q) := by
  unfold searchStage searchPred
  by_cases h : jsTrim q = ""
  · simp [h]
  · simp [h]

lemma assigneeStage_eq_filter (fa : String) (l : List Task) :
    assigneeStage fa l = l.filter (assigneePred fa) := by
  unfold assigneeStage assigneePred
  by_cases h : fa = "all"
  · simp [h]
  · simp [h]

lemma statusStage_eq_filter (fs : String) (l : List Task) :
    statusStage fs l = l.filter (statusPred fs) := by
  unfold statusStage statusPred
  by_cases h1 : fs = "unfinished"
  · simp [h1]
  · by_cases h2 : fs = "finished"
    · simp [h1, h2]
    · simp [h1, h2]

/-- C5: running the three filter stages of `filteredTasks` in sequence on
any task list gives exactly the single filter by the conjunction of the
three stage predicates (each stage predicate includes its own pass-all
guard). -/
theorem filter_composition (q fa fs : String) (l : List Task) :
    statusStage fs (assigneeStage fa (searchStage q l))
      = l.filter (fun t => searchPred q t && assigneePred fa t && statusPred fs t) := by
  rw [searchStage_eq_filter, assigneeStage_eq_filter, statusStage_eq_filter,
    List.filter_filter, List.filter_filter]
  apply List.filter_congr
  intro t _
  cases searchPred q t <;> cases assigneePred fa t <;> cases statusPred fs t <;> rfl

/-! ### C6: tasks without a target date sort last -/

theorem jsMerge_mem {le : α → α → Bool} :
    ∀ (l r : List α) (x : α), x ∈ jsMerge le l r → x ∈ l ∨ x ∈ r
  | [], r, x, h => Or.inr (by simpa [jsMerge] using h)
  | a :: as, [], x, h => Or.inl (by simpa [jsMerge] using h)
  | a :: as, b :: bs, x, h => by
    rw [jsMerge] at h
    by_cases hle : le a b
    · rw [if_pos hle] at h
      rcases List.mem_cons.mp h with rfl | h2
      · exact Or.inl (List.mem_cons_self _ _)
      · rcases jsMerge_mem as (b :: bs) x h2 with h3 | h3
        · exact Or.inl (List.mem_cons_of_mem _ h3)
        · exact Or.inr h3
    · rw [if_neg hle] at h
      rcases List.mem_cons.mp h with rfl | h2
      · exact Or.inr (List.mem_cons_self _ _)
      · rcases jsMerge_mem (a :: as) bs x h2 with h3 | h3
        · exact Or.inl h3
        · exact Or.inr (List.mem_cons_of_mem _ h3)
  termination_by l r => l.length + r.length

theorem jsMerge_pairwise {le : α → α → Bool} {P : α → Bool}
    (H1 : ∀ a b, le a b = true → P a = true)
    (H2 : ∀ a b, le a b = false → P a = true → P b = true) :
    ∀ (l r : List α),
      l.Pairwise (fun a b => P b = true → P a = true) →
      r.Pairwise (fun a b => P b = true → P a = true) →
      (jsMerge le l r).Pairwise (fun a b => P b = true → P a = true)
  | [], r, _, hr => by simpa [jsMerge] using hr
  | a :: as, [], hl, _ => by simpa [jsMerge] using hl
  | a :: as, b :: bs, hl, hr => by
    rw [jsMerge]
    by_cases hle : le a b
    · rw [if_pos hle]
      rw [List.pairwise_cons]
      refine ⟨fun z _ _ => H1 a b hle, ?_⟩
      exact jsMerge_pairwise H1 H2 as (b :: bs) (List.Pairwise.of_cons hl) hr
    · have hle' : le a b = false := by simpa using hle
      rw [if_neg hle]
      rw [List.pairwise_cons]
      constructor
      · intro z hz hPz
        by_cases hPb : P b = true
        · exact hPb
        · exfalso
          have hPa : P a = false := by
            cases hpa : P a with
            | false => rfl
            | true => exact False.elim (hPb (H2 a b hle' hpa))
          rcases jsMerge_mem _ _ z hz with hzl | hzr
          · rcases List.mem_cons.mp hzl with rfl | hzas
            · simp [hPz] at hPa
            · have hPaT := (List.pairwise_cons.mp hl).1 z hzas hPz
              simp [hPaT] at hPa
          · exact hPb ((List.pairwise_cons.mp hr).1 z hzr hPz)
      · exact jsMerge_pairwise H1 H2 (a :: as) bs hl (List.Pairwise.of_cons hr)
  termination_by l r => l.length + r.length

theorem jsSortAux_pairwise {le : α → α → Bool} {P : α → Bool}
    (H1 : ∀ a b, le a b = true → P a = true)
    (H2 : ∀ a b, le a b = false → P a = true → P b = true) :
    ∀ (l : List α),
      (jsSort.mergeSortAux le l).Pairwise (fun a b => P b = true → P a = true)
  | [] => by simp [jsSort.mergeSortAux]
  | [x] => by simp [jsSort.mergeSortAux]
  | x :: y :: rest => by
    rw [jsSort.mergeSortAux]
    exact jsMerge_pairwise H1 H2 _ _
      (jsSortAux_pairwise H1 H2 _)
      (jsSortAux_pairwise H1 H2 _)
  termination_by l => l.length
  decreasing_by
    · simp only [List.length_take, List.length_cons]
      omega
    · simp only [List.length_drop, List.length_cons]
      omega

lemma chunked_of_pairwise {P : α → Bool} :
    ∀ (l : List α), l.Pairwise (fun a b => P b = true → P a = true) →
      ∃ xs ys, l = xs ++ ys ∧ (∀ x ∈ xs, P x = true) ∧ (∀ y ∈ ys, P y = false)
  | [], _ => ⟨[], [], rfl, by simp, by simp⟩
  | a :: l, h => by
    obtain ⟨hhead, htail⟩ := List.pairwise_cons.mp h
    cases hPa : P a with
    | true =>
      obtain ⟨xs, ys, heq, hxs, hys⟩ := chunked_of_pairwise l htail
      refine ⟨a :: xs, ys, by rw [heq]; rfl, ?_, hys⟩
      intro x hx
      rcases List.mem_cons.mp hx with rfl | hx2
      · exact hPa
      · exact hxs x hx2
    | false =>
      refine ⟨[], a :: l, rfl, by simp, ?_⟩
      intro y hy
      rcases List.mem_cons.mp hy with rfl | hyl
      · exact hPa
      · cases hPy : P y with
        | false => rfl
        | true => simp [hhead y hyl hPy] at hPa

lemma sortComparator_le_hasTarget (so : String)
    (hso : so = "date_asc" ∨ so = "date_desc") (a b : Task)
    (h : sortComparator so a b ≤ 0) : hasTargetDate a = true := by
  cases hA : hasTargetDate a
  · exfalso
    rcases hso with rfl | rfl <;> simp [sortComparator, hA] at h
  · rfl

lemma sortComparator_pos_hasTarget (so : String)
    (hso : so = "date_asc" ∨ so = "date_desc") (a b : Task)
    (h : ¬ sortComparator so a b ≤ 0) (hA : hasTargetDate a = true) :
    hasTargetDate b = true := by
  cases hB : hasTargetDate b
  · exfalso
    rcases hso with rfl | rfl <;> simp [sortComparator, hA, hB] at h
  · rfl

/-- C6: for every input task list, under both the ascending and the
descending `targetDate` sort orders, the sorted output splits into a block
of tasks that have a target date followed by a block of tasks that do not:
every task without a `targetDate` appears after every task with one. -/
theorem sort_missing_dates_last (so : String) (l : List Task)
    (hso : so = "date_asc" ∨ so = "date_desc") :
    ∃ xs ys, sortStage so l = xs ++ ys ∧
      (∀ t ∈ xs, hasTargetDate t = true) ∧ (∀ t ∈ ys, hasTargetDate t = false) := by
  apply chunked_of_pairwise
  unfold sortStage jsSort
  apply jsSortAux_pairwise (P := hasTargetDate)
  · intro a b hle
    exact sortComparator_le_hasTarget so hso a b (of_decide_eq_true hle)
  · intro a b hle hPa
    exact sortComparator_pos_hasTarget so hso a b (of_decide_eq_false hle) hPa

/-- C6 witness: sorting a concrete two-task list (one dated, one undated)
ascending by target date. -/
theorem sort_missing_dates_last_witness :
    ∃ xs ys, sortStage "date_asc" [sampleTask, sampleDatedTask] = xs ++ ys ∧
      (∀ t ∈ xs, hasTargetDate t = true) ∧ (∀ t ∈ ys, hasTargetDate t = false) :=
  sort_missing_dates_last "date_asc" [sampleTask, sampleDatedTask] (Or.inl rfl)

/-! ### C7: task number allocation -/

lemma data_append (s t : String) : (s ++ t).data = s.data ++ t.data := by
  cases s; cases t; rfl

lemma append_assoc_str (a b c : String) : a ++ b ++ c = a ++ (b ++ c) := by
  apply String.ext
  simp only [data_append, List.append_assoc]

lemma length_append_str (a b : String) : (a ++ b).length = a.length + b.length := by
  show (a ++ b).data.length = a.data.length + b.data.length
  rw [data_append, List.length_append]

lemma isPrefixOf_append_self : ∀ (p s : List Char), p.isPrefixOf (p ++ s) = true
  | [], _ => by simp [List.isPrefixOf]
  | c :: cs, s => by simp [List.isPrefixOf, isPrefixOf_append_self cs s]

lemma eq_of_isPrefixOf_append :
    ∀ (p q s : List Char), q.length = p.length → q.isPrefixOf (p ++ s) = true → q = p
  | p, [], _, hlen, _ => by
    cases p with
    | nil => rfl
    | cons c cs => simp at hlen
  | [], _ :: _, _, hlen, _ => by simp at hlen
  | c :: cs, d :: ds, s, hlen, h => by
    simp only [List.cons_append, List.isPrefixOf, Bool.and_eq_true, beq_iff_eq] at h
    obtain ⟨rfl, h2⟩ := h
    simp only [List.length_cons, Nat.add_right_cancel_iff] at hlen
    rw [eq_of_isPrefixOf_append cs ds s hlen h2]

lemma jsStartsWith_append (p s : String) : jsStartsWith (p ++ s) p = true := by
  unfold jsStartsWith
  rw [data_append]
  exact isPrefixOf_append_self _ _

lemma jsStartsWith_append_ne (p s q : String) (hlen : q.length = p.length)
    (hne : q ≠ p) : jsStartsWith (p ++ s) q = false := by
  cases hq : jsStartsWith (p ++ s) q
  · rfl
  · exfalso
    unfold jsStartsWith at hq
    rw [data_append] at hq
    exact hne (String.ext (eq_of_isPrefixOf_append p.data q.data s.data hlen hq))

set_option maxRecDepth 10000 in
lemma pad2_inj : ∀ m < 32, ∀ n < 32, pad2 m = pad2 n → m = n := by decide

lemma pad2_length : ∀ n < 32, (pad2 n).length = 2 := by decide

lemma mmdd_length (m d : Nat) (hm : m < 32) (hd : d < 32) : (mmdd m d).length = 4 := by
  unfold mmdd
  rw [length_append_str, pad2_length m hm, pad2_length d hd]

lemma mmdd_inj (m d m' d' : Nat) (hm : m < 32) (hd : d < 32) (hm' : m' < 32)
    (hd' : d' < 32) (h : mmdd m d = mmdd m' d') : m = m' ∧ d = d' := by
  unfold mmdd at h
  have hdata := congrArg String.data h
  rw [data_append, data_append] at hdata
  have hlen : (pad2 m).data.length = (pad2 m').data.length := by
    show (pad2 m).length = (pad2 m').length
    rw [pad2_length m hm, pad2_length m' hm']
  obtain ⟨h1, h2⟩ := List.append_inj hdata hlen
  exact ⟨pad2_inj m hm m' hm' (String.ext h1), pad2_inj d hd d' hd' (String.ext h2)⟩

lemma taskNumber_set (t : Task) (n : String) :
    ({ t with taskNumber := n } : Task).taskNumber = n := rfl

lemma generateTaskNumber_eq (tasks : List Task) (m d : Nat) :
    generateTaskNumber tasks m d
      = mmdd m d ++ "-"
          ++ toString
              ((tasks.filter (fun t => jsStartsWith t.taskNumber (mmdd m d))).length + 1) :=
  rfl

lemma dash_one : ("-" ++ toString (1 : Nat) : String) = "-1" := rfl

lemma dash_two : ("-" ++ toString (2 : Nat) : String) = "-2" := rfl

lemma dash_three : ("-" ++ toString (3 : Nat) : String) = "-3" := rfl

/-- C7: `generateTaskNumber` counts the stored tasks whose `taskNumber`
starts with the current date's `MMDD` prefix and returns
`prefix-(count+1)`.  Hence, when no stored task carries today's prefix,
creating three tasks on the same (month, day) yields `MMDD-1`, `MMDD-2`,
`MMDD-3` in creation order, and a subsequent creation on a different
(month, day) carrying no prior tasks of its own yields that day's prefix
with suffix 1, independent of the first day's count. -/
theorem task_numbering (store : List Task) (m d : Nat) (t1 t2 t3 : Task)
    (hm : 1 ≤ m ∧ m ≤ 12) (hd : 1 ≤ d ∧ d ≤ 31)
    (hstore : ∀ t ∈ store, jsStartsWith t.taskNumber (mmdd m d) = false) :
    generateTaskNumber store m d = mmdd m d ++ "-1" ∧
    generateTaskNumber (addTask store m d t1) m d = mmdd m d ++ "-2" ∧
    generateTaskNumber (addTask (addTask store m d t1) m d t2) m d
      = mmdd m d ++ "-3" ∧
    (∀ m' d', 1 ≤ m' ∧ m' ≤ 12 → 1 ≤ d' ∧ d' ≤ 31 → ¬ (m' = m ∧ d' = d) →
      (∀ t ∈ store, jsStartsWith t.taskNumber (mmdd m' d') = false) →
      generateTaskNumber (addTask (addTask (addTask store m d t1) m d t2) m d t3) m' d'
        = mmdd m' d' ++ "-1") := by
  have hnil : store.filter (fun t => jsStartsWith t.taskNumber (mmdd m d)) = [] :=
    List.filter_eq_nil_iff.mpr (fun t ht => by simp [hstore t ht])
  have h1 : generateTaskNumber store m d = mmdd m d ++ "-1" := by
    rw [generateTaskNumber_eq, hnil, append_assoc_str]
    norm_num
    rw [dash_one]
  have e1 : addTask store m d t1
      = ({ t1 with taskNumber := mmdd m d ++ "-1" } : Task) :: store := by
    rw [addTask, h1]
  have hsw1 : jsStartsWith (mmdd m d ++ "-1") (mmdd m d) = true :=
    jsStartsWith_append _ _
  have h2 : generateTaskNumber (addTask store m d t1) m d = mmdd m d ++ "-2" := by
    rw [e1, generateTaskNumber_eq, List.filter_cons]
    simp only [taskNumber_set, hsw1, if_pos, hnil]
    rw [append_assoc_str]
    norm_num
    rw [dash_two]
  have e2 : addTask (addTask store m d t1) m d t2
      = ({ t2 with taskNumber := mmdd m d ++ "-2" } : Task)
          :: ({ t1 with taskNumber := mmdd m d ++ "-1" } : Task) :: store := by
    rw [addTask, h2, e1]
  have hsw2 : jsStartsWith (mmdd m d ++ "-2") (mmdd m d) = true :=
    jsStartsWith_append _ _
  have h3 : generateTaskNumber (addTask (addTask store m d t1) m d t2) m d
      = mmdd m d ++ "-3" := by
    rw [e2, generateTaskNumber_eq, List.filter_cons, List.filter_cons]
    simp only [taskNumber_set, hsw1, hsw2, if_pos, hnil]
    rw [append_assoc_str]
    norm_num
    rw [dash_three]
  refine ⟨h1, h2, h3, ?_⟩
  intro m' d' hm' hd' hne hstore'
  have hqlen : (mmdd m' d').length = (mmdd m d).length := by
    rw [mmdd_length m d (by omega) (by omega), mmdd_length m' d' (by omega) (by omega)]
  have hqne : mmdd m' d' ≠ mmdd m d := fun h =>
    hne (mmdd_inj m' d' m d (by omega) (by omega) (by omega) (by omega) h)
  have e3 : addTask (addTask (addTask store m d t1) m d t2) m d t3
      = ({ t3 with taskNumber := mmdd m d ++ "-3" } : Task)
          :: ({ t2 with taskNumber := mmdd m d ++ "-2" } : Task)
          :: ({ t1 with taskNumber := mmdd m d ++ "-1" } : Task) :: store := by
    rw [addTask, h3, e2]
  have hnil' :
      (({ t3 with taskNumber := mmdd m d ++ "-3" } : Task)
          :: ({ t2 with taskNumber := mmdd m d ++ "-2" } : Task)
          :: ({ t1 with taskNumber := mmdd m d ++ "-1" } : Task) :: store).filter
        (fun t => jsStartsWith t.taskNumber (mmdd m' d')) = [] := by
    apply List.filter_eq_nil_iff.mpr
    intro t ht
    rcases List.mem_cons.mp ht with rfl | ht2
    · simp [taskNumber_set, jsStartsWith_append_ne _ _ _ hqlen hqne]
    · rcases List.mem_cons.mp ht2 with rfl | ht3
      · simp [taskNumber_set, jsStartsWith_append_ne _ _ _ hqlen hqne]
      · rcases List.mem_cons.mp ht3 with rfl | ht4
        · simp [taskNumber_set, jsStartsWith_append_ne _ _ _ hqlen hqne]
        · simp [hstore' t ht4]
  rw [e3, generateTaskNumber_eq, hnil', append_assoc_str]
  norm_num
  rw [dash_one]

/-- C7 witness: three creations on June 1st starting from an empty store
give `0601-1`, `0601-2`, `0601-3`, and a fourth creation on June 2nd gives
`0602-1`. -/
theorem task_numbering_witness :
    generateTaskNumber [] 6 1 = "0601-1" ∧
    generateTaskNumber (addTask [] 6 1 sampleTask) 6 1 = "0601-2" ∧
    generateTaskNumber (addTask (addTask [] 6 1 sampleTask) 6 1 sampleTask) 6 1
      = "0601-3" ∧
    generateTaskNumber
      (addTask (addTask (addTask [] 6 1 sampleTask) 6 1 sampleTask) 6 1 sampleTask) 6 2
      = "0602-1" := by
  obtain ⟨w1, w2, w3, w4⟩ :=
    task_numbering [] 6 1 sampleTask sampleTask sampleTask
      (by omega) (by omega) (by intro t ht; cases ht)
  refine ⟨?_, ?_, ?_, ?_⟩
  · rw [w1]; rfl
  · rw [w2]; rfl
  · rw [w3]; rfl
  · rw [w4 6 2 (by omega) (by omega) (by omega) (by intro t ht; cases ht)]; rfl

/-! ### C1: the status–progress–date triangle -/

lemma dateSideInv_applySeq :
    ∀ (steps : List Mut) (t : Task), DateSideInv t →
      (∀ m ∈ steps, mutWellFormed m) → DateSideInv (applySeq t steps)
  | [], _, h, _ => h
  | m :: ms, t, h, hwf =>
    dateSideInv_applySeq ms (applyMut t m)
      (dateSideInv_applyMut t m h (hwf m (by simp)))
      (fun m' hm' => hwf m' (by simp [hm']))

/-- C1 counterexample: starting from a fresh task, completing it through a
direct status change and then setting the status back to `進行中` leaves
`progress = 100` with a non-completed status, so the claimed three-way
equivalence `status==completed ⇔ progress==100 ⇔ actualCompletedDate
non-empty` fails after this two-step sequence of §4.1 entry points (the
status branch of `handleUpdateTask` clears the date but leaves the progress
as-is). -/
theorem triangle_invariant_cex :
    ¬ ((applySeq sampleTask
          [Mut.update "2024-06-01" (FieldMut.status TaskStatus.completed),
           Mut.update "2024-06-02" (FieldMut.status TaskStatus.inProgress)]).status
            = TaskStatus.completed
        ↔ (applySeq sampleTask
          [Mut.update "2024-06-01" (FieldMut.status TaskStatus.completed),
           Mut.update "2024-06-02" (FieldMut.status TaskStatus.inProgress)]).progress
            = 100) := by
  decide

/-- C1 (amended): starting from a freshly created task, after every
sequence of the §4.1 mutation entry points (direct field updates through
`handleUpdateTask`, direct status changes through `handleStatusChange`,
report submissions through `handleSaveReport`) that respects the caller
contract (non-empty wall-clock day, progress in `[0,100]`), the reachable
state satisfies the one direction of the triangle the code maintains: a
non-empty `actualCompletedDate` implies `status = 已完成` and
`progress = 100`.  The other two directions of the claimed three-way
equivalence do not hold (see the counterexample). -/
theorem triangle_invariant_amended (t0 : Task) (steps : List Mut)
    (hstatus : t0.status = TaskStatus.notStarted) (hprogress : t0.progress = 0)
    (hdate : t0.actualCompletedDate = "")
    (hwf : ∀ m ∈ steps, mutWellFormed m) :
    DateSideInv (applySeq t0 steps) :=
  dateSideInv_applySeq steps t0 (fun h => absurd hdate h) hwf

/-- C1 witness: the invariant after a concrete five-step mutation
sequence on a fresh task. -/
theorem triangle_invariant_amended_witness :
    DateSideInv (applySeq sampleTask
      [Mut.statusChange "2024-06-01" TaskStatus.completed,
       Mut.report "2024-06-02" 10 "r9" 40 "rework",
       Mut.update "2024-06-02" (FieldMut.progress 100),
       Mut.update "2024-06-03" (FieldMut.actualCompletedDate ""),
       Mut.update "2024-06-03" (FieldMut.notes "n")]) :=
  triangle_invariant_amended sampleTask _ (by decide) (by decide) (by decide)
    (by intro m hm
        simp only [List.mem_cons, List.not_mem_nil, or_false] at hm
        rcases hm with rfl | rfl | rfl | rfl | rfl <;> simp only [mutWellFormed] <;> decide)

/-! ### C4: report completion scenario -/

/-- C4 counterexample: submitting a report with `progress = 100` and empty
content on a fresh `未開始` task passes the modal guard (progress changed)
and completes the task, but appends no `ReportEntry` at all —
`handleSaveReport` only appends when the content is non-empty — so the
claimed "appends exactly one ReportEntry" fails. -/
theorem report_completion_cex :
    (handleSubmit "2024-06-02" 5 "r1" sampleTask 100 "").reports.length
      ≠ sampleTask.reports.length + 1 := by
  decide

/-- C4 (amended): submitting a report with `progress = 100` and non-blank
content on a `未開始` task sets `status = 已完成` and
`actualCompletedDate = today`, and appends exactly one `ReportEntry`
carrying `progress = 100`; with blank content the status and date still
update but nothing is appended. -/
theorem report_completion (t : Task) (today : String) (ts : Nat) (nid c : String)
    (hns : t.status = TaskStatus.notStarted) (hc : jsTrim c ≠ "") :
    (handleSubmit today ts nid t 100 c).status = TaskStatus.completed ∧
    (handleSubmit today ts nid t 100 c).actualCompletedDate = today ∧
    (handleSubmit today ts nid t 100 c).progress = 100 ∧
    (handleSubmit today ts nid t 100 c).reports
      = t.reports ++ [{ id := nid, date := today, reporter := t.assignee,
                        content := c, progress := 100, timestamp := ts }] := by
  have hc' : c ≠ "" := fun h => hc (by rw [h]; rfl)
  have hguard : ¬ (jsTrim c = "" ∧ (100 : Int) = t.progress) := fun h => hc h.1
  simp [handleSubmit, hguard, handleSaveReport, hc']

/-- C4 witness: a concrete completing report with content `"done"`. -/
theorem report_completion_witness :
    sampleTask.status = TaskStatus.notStarted ∧ jsTrim "done" ≠ "" ∧
    ((handleSubmit "2024-06-02" 5 "r1" sampleTask 100 "done").status
        = TaskStatus.completed ∧
     (handleSubmit "2024-06-02" 5 "r1" sampleTask 100 "done").actualCompletedDate
        = "2024-06-02" ∧
     (handleSubmit "2024-06-02" 5 "r1" sampleTask 100 "done").progress = 100 ∧
     (handleSubmit "2024-06-02" 5 "r1" sampleTask 100 "done").reports
        = sampleTask.reports ++
            [{ id := "r1", date := "2024-06-02", reporter := sampleTask.assignee,
               content := "done", progress := 100, timestamp := 5 }]) :=
  ⟨rfl, by decide,
    report_completion sampleTask "2024-06-02" 5 "r1" "done" rfl (by decide)⟩

/-! ### C2: idempotence of completion -/

/-- C2: applying `handleStatusChange` with new status `已完成` twice in a
row (both calls seeing the same wall-clock day) yields the same final task
state as applying it once; in particular the second application leaves
`actualCompletedDate` (and every other field) unchanged. -/
theorem statusChange_completed_idempotent (t : Task) (today : String) :
    handleStatusChange today (handleStatusChange today t TaskStatus.completed)
      TaskStatus.completed
      = handleStatusChange today t TaskStatus.completed := by
  simp [handleStatusChange]

/-! ### C3: due-status classification -/

/-- C3: `getTaskDueStatus` classifies exactly as the spec describes: for a
fixed today, it returns `normal` when the status is `已完成` or the target
date is absent, and otherwise compares the ceiling-rounded day difference
`diffDays` against `< 0` (overdue) and `0 ≤ diffDays ≤ 3` (due-soon),
returning `normal` beyond that.  Both dates are local-midnight instants,
i.e. whole-day multiples of `msPerDay`. -/
theorem getTaskDueStatus_correct (targetDays : Option Int) (s : TaskStatus)
    (todayDays : Int) :
    getTaskDueStatus (targetDays.map (· * msPerDay)) s (todayDays * msPerDay)
      = dueStatusSpec targetDays s todayDays := by
  cases targetDays with
  | none => rfl
  | some d =>
    by_cases hs : s = TaskStatus.completed
    · simp [getTaskDueStatus, dueStatusSpec, hs]
    · have key : mathCeilDiv (d * msPerDay - todayDays * msPerDay) msPerDay
          = d - todayDays := by
        rw [← sub_mul]
        unfold mathCeilDiv
        rw [← neg_mul, Int.mul_fdiv_cancel _ (by norm_num [msPerDay]), neg_neg]
      simp only [Option.map_some', getTaskDueStatus, dueStatusSpec, if_neg hs, key]
      split_ifs <;> first | rfl | omega

/-! ### C8: pass-through frame property -/

/-- C8: updating any field other than `status`, `progress`,
`actualCompletedDate` through `handleUpdateTask` changes only that field
(in particular it leaves `status`, `progress` and `actualCompletedDate`
untouched), for each of the nine pass-through fields. -/
theorem passthrough_frame (t : Task) (today s : String) (od : Option String)
    (ls : List String) (p : Priority) :
    handleUpdateTask today t (.content s) = { t with content := s } ∧
    handleUpdateTask today t (.assignee s) = { t with assignee := s } ∧
    handleUpdateTask today t (.assignedDate s) = { t with assignedDate := s } ∧
    handleUpdateTask today t (.targetDate od) = { t with targetDate := od } ∧
    handleUpdateTask today t (.tags ls) = { t with tags := ls } ∧
    handleUpdateTask today t (.notes s) = { t with notes := s } ∧
    handleUpdateTask today t (.system s) = { t with system := s } ∧
    handleUpdateTask today t (.category s) = { t with category := s } ∧
    handleUpdateTask today t (.priority p) = { t with priority := p } :=
  ⟨rfl, rfl, rfl, rfl, rfl, rfl, rfl, rfl, rfl⟩

/-! ### C9: import atomicity on malformed input -/

/-- C9: importing a JSON value that is not an array (for example an
object) leaves the stored collection unchanged and reports the format
error, whatever the current collection and the confirmation outcome; no
partial replacement occurs. -/
theorem import_non_array_unchanged (confirm : Bool) (parsed : Json)
    (current : List Json) (h : ∀ items, parsed ≠ Json.arr items) :
    handleImportDatabase confirm parsed current = (current, ImportOutcome.formatError) := by
  cases parsed <;> first | rfl | exact absurd rfl (h _)

/-- C9 witness: importing an object over a non-empty collection. -/
theorem import_non_array_unchanged_witness :
    handleImportDatabase true (Json.obj [("tasks", Json.null)]) [Json.str "keep"]
      = ([Json.str "keep"], ImportOutcome.formatError) :=
  import_non_array_unchanged true _ _ (fun _ h => Json.noConfusion h)

/-! ### C10: direct progress edit is a pure frame update -/

/-- C10: on a task whose progress is not 100, a direct progress edit to
`v` with `0 ≤ v < 100` changes only the progress field; in particular a
`未開始` task stays `未開始`, whereas a report submission with the same
`0 < v < 100` moves it to `進行中`. -/
theorem progress_edit_frame (t : Task) (today : String) (v : Int) (ts : Nat)
    (nid c : String) (h0 : 0 ≤ v) (h100 : v < 100) (hp : t.progress ≠ 100) :
    handleUpdateTask today t (.progress v) = { t with progress := v } ∧
    (t.status = TaskStatus.notStarted →
      (handleUpdateTask today t (.progress v)).status = TaskStatus.notStarted ∧
      (0 < v → (handleSaveReport today ts nid t v c).status = TaskStatus.inProgress)) := by
  have hv : v ≠ 100 := ne_of_lt h100
  refine ⟨?_, fun hns => ⟨?_, fun hvpos => ?_⟩⟩
  · simp [handleUpdateTask, hv, hp]
  · simp [handleUpdateTask, hv, hp, hns]
  · simp [handleSaveReport, hv, hvpos, hns]

/-- C10 witness: editing a fresh task's progress to 50. -/
theorem progress_edit_frame_witness :
    (0 : Int) ≤ 50 ∧ (50 : Int) < 100 ∧ sampleTask.progress ≠ 100 ∧
    (handleUpdateTask "2024-06-02" sampleTask (.progress 50)
        = { sampleTask with progress := 50 } ∧
      (sampleTask.status = TaskStatus.notStarted →
        (handleUpdateTask "2024-06-02" sampleTask (.progress 50)).status
            = TaskStatus.notStarted ∧
        (0 < (50 : Int) →
          (handleSaveReport "2024-06-02" 7 "r2" sampleTask 50 "half done").status
              = TaskStatus.inProgress))) :=
  ⟨by decide, by decide, by decide,
    progress_edit_frame sampleTask "2024-06-02" 50 7 "r2" "half done"
      (by decide) (by decide) (by decide)⟩

end App
